import Mathlib

/-!
Shallow embedding of the gfr hotfix workflow (src/gfr/commands/hotfix.py and
src/gfr/utils/config.py), together with proofs settling the specification
claims about it.  Python strings are modelled as `List Char`; each Python
function is translated operation by operation.  A Python function that can
raise is modelled with an `Option` result, `none` standing for the raised
exception.
-/

/-- Convert a Lean string literal to the `List Char` representation used
throughout this development. -/
def chars (s : String) : List Char := s.data

/-- ASCII decimal digit test: `'0' ≤ c ≤ '9'`. -/
def isDigitChar (c : Char) : Bool := 48 ≤ c.toNat && c.toNat ≤ 57

/-- Numeric value of an ASCII digit character. -/
def charVal (c : Char) : Nat := c.toNat - 48

/-- ASCII digit character for a value `d < 10`. -/
def digitChar (d : Nat) : Char := Char.ofNat (48 + d)

/-- Little-endian decimal digit characters of `n`, computed with an explicit
fuel argument so that the definition is structural (and hence evaluates inside
the kernel); `natRepr_eq_digits` below relates it to `Nat.digits`. -/
def natReprAux : Nat → Nat → List Char
  | 0, _ => []
  | fuel + 1, n => if n = 0 then [] else digitChar (n % 10) :: natReprAux fuel (n / 10)

/-- Decimal rendering of a natural number (Python `str` / f-string formatting
of a non-negative `int`). -/
def natRepr (n : Nat) : List Char :=
  if n = 0 then ['0'] else (natReprAux n n).reverse

/-- Decimal rendering of an integer (Python f-string formatting of `int`). -/
def intRepr (i : Int) : List Char :=
  if i < 0 then '-' :: natRepr i.natAbs else natRepr i.natAbs

/-- ASCII whitespace, the characters Python `int()` ignores around its
argument (the model is restricted to ASCII text). -/
def isPyWS (c : Char) : Bool :=
  c.toNat = 32 || c.toNat = 9 || c.toNat = 10 || c.toNat = 13 ||
    c.toNat = 11 || c.toNat = 12

/-- Python `str.lstrip(ch)` for a one-character argument: drop every leading
occurrence of `ch`. -/
def pyLstrip (ch : Char) (s : List Char) : List Char :=
  s.dropWhile (fun c => c == ch)

/-- Strip ASCII whitespace from both ends (Python `int()` ignores surrounding
whitespace; also Python `str.strip()` on ASCII text). -/
def pyStripWS (s : List Char) : List Char :=
  ((s.dropWhile isPyWS).reverse.dropWhile isPyWS).reverse

/-- Digit-and-underscore tail of Python `int` parsing: after a first digit has
been consumed into `acc`, each following character must be a digit or a single
underscore followed by a digit. -/
def pduAux (acc : Nat) : List Char → Option Nat
  | [] => some acc
  | c :: rest =>
    if isDigitChar c then pduAux (acc * 10 + charVal c) rest
    else if c = '_' then
      match rest with
      | d :: rest2 => if isDigitChar d then pduAux (acc * 10 + charVal d) rest2 else none
      | [] => none
    else none

/-- Unsigned digit string with Python underscore grouping: nonempty, starting
with a digit. -/
def parseDigitsUnd : List Char → Option Nat
  | [] => none
  | c :: rest => if isDigitChar c then pduAux (charVal c) rest else none

/-- Python `int(s)` in base 10 (restricted to ASCII): strip surrounding
whitespace, allow one optional sign, then an underscore-grouped digit string.
`none` models a raised `ValueError`. -/
def pyInt (s : List Char) : Option Int :=
  match pyStripWS s with
  | [] => none
  | c :: rest =>
    if c = '+' then (parseDigitsUnd rest).map Int.ofNat
    else if c = '-' then (parseDigitsUnd rest).map (fun n => -(n : Int))
    else (parseDigitsUnd (c :: rest)).map Int.ofNat

/-- Python `str.split(sep)` for a one-character separator: `"".split(sep)` is
`[""]` and separators at the ends produce empty fields. -/
def splitOn (sep : Char) : List Char → List (List Char)
  | [] => [[]]
  | c :: rest =>
    if c = sep then [] :: splitOn sep rest
    else
      match splitOn sep rest with
      | h :: t => (c :: h) :: t
      | [] => [[c]]

/-- `_get_next_patch_version` (src/gfr/commands/hotfix.py, lines 19-27).
An empty (or absent) prior version yields `"0.0.1"`; otherwise all leading
`'v'` characters are stripped, the rest is split on `'.'`, the three fields
are converted with Python `int`, and the last is incremented.  `none` models
the unhandled `ValueError` raised when the split does not produce exactly
three `int`-convertible fields. -/
def get_next_patch_version (current_version : List Char) : Option (List Char) :=
  if current_version = [] then some (chars "0.0.1")
  else
    match (splitOn '.' (pyLstrip 'v' current_version)).map pyInt with
    | [some major, some minor, some patch] =>
      some (intRepr major ++ '.' :: intRepr minor ++ '.' :: intRepr (patch + 1))
    | _ => none

-- ## Changelog insertion (src/gfr/commands/hotfix.py, lines 110-117)

/-- The fixed part of the insertion regex `(# Changelog\n\n.*?\n\n)`: the
pattern starts with the literal text `"# Changelog"` followed by two
newlines.  Note that the regex is not anchored to the start of a line. -/
def headingPat : List Char := chars "# Changelog\n\n"

/-- Index of the first occurrence of `pat` as a contiguous sublist of `s`
(the leftmost position at which a regex literal can match). -/
def findIdx (pat : List Char) : List Char → Option Nat
  | [] => if pat.isPrefixOf ([] : List Char) then some 0 else none
  | c :: t => if pat.isPrefixOf (c :: t) then some 0 else (findIdx pat t).map (· + 1)

/-- End position (exclusive) of the first match of the regex
`(# Changelog\n\n.*?\n\n)` under `re.DOTALL`: the leftmost position where the
literal head matches, extended by the lazily shortest `.*?` up to the next
`"\n\n"`.  If the head occurs but no `"\n\n"` follows its earliest
occurrence, no later head occurrence can complete a match either, so there is
no match at all. -/
def findMatchEnd (content : List Char) : Option Nat :=
  match findIdx headingPat content with
  | none => none
  | some i =>
    match findIdx (chars "\n\n") (content.drop (i + headingPat.length)) with
    | none => none
    | some j => some (i + headingPat.length + j + 2)

/-- The changelog rewrite on line 114 of hotfix.py:
`re.sub(r'(# Changelog\n\n.*?\n\n)', fr'\1{new_entry}\n', content, 1,
re.DOTALL)` — the first match is replaced by itself followed by the entry and
one extra newline; with no match the content is returned unchanged.  (The
replacement template is modelled literally; entries containing regex escape
sequences are outside the model.)  The file is then rewritten from position 0
without truncation, which is lossless here because the result is never
shorter than the original. -/
def applyChangelogSub (content entry : List Char) : List Char :=
  match findMatchEnd content with
  | none => content
  | some e => content.take e ++ entry ++ '\n' :: content.drop e

-- ## Branch merge plan (src/gfr/commands/hotfix.py, lines 170-171)

/-- Line 171: `[b for b in all_branches if b not in ['main', 'develop',
'doc', current_branch] and not b.startswith('remotes/')]`. -/
def branchesToMergeInto (all_branches : List (List Char)) (current_branch : List Char) :
    List (List Char) :=
  all_branches.filter (fun b =>
    !(List.elem b [chars "main", chars "develop", chars "doc", current_branch]) &&
      !((chars "remotes/").isPrefixOf b))

-- ## The hotfix workflow interpreter

/-- Side effects performed by the workflow against the source-control
provider, the code-hosting provider, the filesystem and the config store.
Console rendering is not an effect, with the exception of the two per-branch
diagnostics of the best-effort propagation phase (`guidance`, `warnNoMerge`),
which claim C4 is about. -/
inductive Event
  | fileWrite (path : List Char) (content : List Char)
  | gitAdd (paths : List (List Char))
  | gitCommit (msg : List Char)
  | gitPush (branch : List Char) (setUpstream : Bool)
  | prCreate (title body head base : List Char) (labels : List (List Char))
  | prMerge (base : List Char)
  | switchBranch (branch : List Char)
  | pullBranch (branch : List Char)
  | createTag (name msg : List Char)
  | pushTags
  | createRelease (tag title notes : List Char)
  | mergeMain (onBranch : List Char)
  | guidance (branch : List Char)
  | warnNoMerge (branch : List Char)
  | deleteRemoteBranch (branch : List Char)
  | deleteLocalBranch (branch : List Char)
  | issueCreate (title body : List Char) (labels : List (List Char))
  | createBranch (name startPoint : List Char)
  | configSetLastUsed (path : List Char)
  deriving DecidableEq

/-- How a run ends: normally, via `typer.Exit(code=1)` after a reported
error, or with an unhandled exception. -/
inductive RunResult
  | success
  | exitError
  | exception
  deriving DecidableEq

/-- Result of one `merge_branch_locally('main')` call during the best-effort
propagation phase: either it succeeds, or it raises a `GitError` carrying a
message. -/
inductive MergeOutcome
  | ok
  | fail (msg : List Char)
  deriving DecidableEq

/-- Substring test (Python `"pat" in s`). -/
def containsSub (pat : List Char) : List Char → Bool
  | [] => pat.isPrefixOf ([] : List Char)
  | c :: t => pat.isPrefixOf (c :: t) || containsSub pat t

/-- The conflict test on line 179 of hotfix.py:
`"merge conflict" in str(e).lower()`. -/
def hasMergeConflictMsg (msg : List Char) : Bool :=
  containsSub (chars "merge conflict") (msg.map Char.toLower)

/-- Python `sep.join(items)`. -/
def joinSep (sep : List Char) : List (List Char) → List Char
  | [] => []
  | [x] => x
  | x :: xs => x ++ sep ++ joinSep sep xs

/-- Modelled from the spec: `_extract_issue_number` is defined in
`gfr/utils/command_helpers.py`, which is not under `src/`.  Per the spec it
extracts the digits immediately following the `hotfix/` prefix of the branch
name and yields nothing when the segment after the prefix does not start
with a digit. -/
def extractIssueNumber (branch : List Char) : Option Nat :=
  if (chars "hotfix/").isPrefixOf branch then
    let ds := (branch.drop 7).takeWhile isDigitChar
    if ds = [] then none
    else some (ds.foldl (fun a c => a * 10 + charVal c) 0)
  else none

/-- Modelled from the spec: the changelog template asset
(`gfr/assets/changelog.py`, imported by hotfix.py) is not under `src/`; the
spec only calls it "a standard template" used to seed a missing
`CHANGELOG.md`.  No claim depends on its exact text; it is modelled as a
minimal Keep-a-Changelog style header. -/
def CHANGELOG_TEMPLATE : List Char :=
  chars "# Changelog\n\nAll notable changes to this project will be documented in this file.\n"

/-- The rendered changelog entry of line 108 of hotfix.py. -/
def renderEntry (nextVersion releaseLink releaseDate : List Char)
    (fixedItems : List (List Char)) : List Char :=
  chars "## [" ++ nextVersion ++ chars "](" ++ releaseLink ++ chars ") - " ++
    releaseDate ++ chars "\n### Fixed\n" ++
    joinSep (chars "\n") (fixedItems.map (fun item => chars "- " ++ item)) ++ chars "\n"

/-- Inputs of one `_finish_hotfix` run.  Values obtained from external
collaborators are supplied as inputs: the resolved target path
(`validate_and_get_repo_details`), the current branch and latest tag read
from the source-control provider, the two interactive prompts (fixed items,
description), the state of `CHANGELOG.md`, the browsable HTTP base URL
(`format_git_url_to_http` lives outside `src/`), today's date, the local
branch listing, and the outcome of each `merge_branch_locally('main')` call
of the best-effort phase.  All other provider calls are modelled as
succeeding; a failure in any of them would abort the run via the top-level
handler and is outside this model. -/
structure FinishInputs where
  targetPath : List Char
  currentBranch : List Char
  latestTag : List Char
  fixedItems : List (List Char)
  changelogExists : Bool
  changelogContent : List Char
  httpUrl : List Char
  today : List Char
  description : List Char
  allBranches : List (List Char)
  mergeOutcome : List Char → MergeOutcome

/-- The pull-request body built on lines 128-134 of hotfix.py: the operator
description, prefixed with an issue-closing directive when the branch name
encodes an issue number. -/
def prBodyOf (inp : FinishInputs) : List Char :=
  match extractIssueNumber inp.currentBranch with
  | some n => chars "Closes #" ++ natRepr n ++ chars "\n\n" ++ inp.description
  | none => inp.description

/-- Events of the best-effort propagation loop (hotfix.py lines 173-188):
for each candidate branch, switch to it and attempt to merge `main`; a
`GitError` whose lowered message contains `"merge conflict"` produces the
guidance message, any other `GitError` produces a warning; neither aborts the
loop, and the handler performs no further repository operation. -/
def propagateEvents (outcome : List Char → MergeOutcome) : List (List Char) → List Event
  | [] => []
  | b :: rest =>
    Event.switchBranch b :: Event.mergeMain b ::
      ((match outcome b with
        | .ok => []
        | .fail msg =>
          if hasMergeConflictMsg msg then [Event.guidance b] else [Event.warnNoMerge b]) ++
        propagateEvents outcome rest)

/-- The event sequence of a `_finish_hotfix` run that passes all its guards
(hotfix.py lines 103-197), in source order: changelog write and commit, push,
the loop `for base_branch in ["main", "develop"]` creating and merging one PR
per base, local sync of main and develop, tag + release from main, the
best-effort propagation phase, and cleanup. -/
def successEvents (inp : FinishInputs) (nextVersion : List Char) : List Event :=
  let tagName := 'v' :: nextVersion
  let releaseLink := inp.httpUrl ++ chars "/releases/tag/" ++ tagName
  let newEntry := renderEntry nextVersion releaseLink inp.today inp.fixedItems
  let newContent :=
    if inp.changelogExists then applyChangelogSub inp.changelogContent newEntry
    else pyStripWS CHANGELOG_TEMPLATE ++ chars "\n\n" ++ newEntry
  let prTitle := chars "Hotfix: " ++ inp.currentBranch
  let prBody := prBodyOf inp
  let releaseNotes := chars "## Changelog\n- " ++ joinSep (chars "\n- ") inp.fixedItems
  [Event.fileWrite (chars "CHANGELOG.md") newContent,
   Event.gitAdd [chars "CHANGELOG.md"],
   Event.gitCommit (chars "docs: update changelog for version " ++ nextVersion),
   Event.gitPush inp.currentBranch true,
   Event.prCreate prTitle prBody inp.currentBranch (chars "main")
     [chars "bug", chars "hotfix"],
   Event.prMerge (chars "main"),
   Event.prCreate prTitle prBody inp.currentBranch (chars "develop")
     [chars "bug", chars "hotfix"],
   Event.prMerge (chars "develop"),
   Event.switchBranch (chars "main"),
   Event.pullBranch (chars "main"),
   Event.switchBranch (chars "develop"),
   Event.pullBranch (chars "develop"),
   Event.switchBranch (chars "main"),
   Event.createTag tagName (chars "Release " ++ nextVersion),
   Event.pushTags,
   Event.createRelease tagName (chars "Release " ++ nextVersion) releaseNotes] ++
  propagateEvents inp.mergeOutcome (branchesToMergeInto inp.allBranches inp.currentBranch) ++
  [Event.deleteRemoteBranch inp.currentBranch,
   Event.deleteLocalBranch inp.currentBranch,
   Event.switchBranch (chars "main"),
   Event.configSetLastUsed inp.targetPath]

/-- Observable outcome of a run: the side effects performed, how the run
ended, and the branch checked out when it ended. -/
structure RunOut where
  events : List Event
  result : RunResult
  finalBranch : List Char
  deriving DecidableEq

/-- `_finish_hotfix` (hotfix.py lines 76-198).  Guards in source order: the
current branch must start with `hotfix/` (exit), the latest tag must be
absent or parseable (unhandled `ValueError` otherwise), and the collected
fixed items must be nonempty (exit); only then do the side effects of
`successEvents` happen and the run ends on `main`. -/
def runFinish (inp : FinishInputs) : RunOut :=
  if !((chars "hotfix/").isPrefixOf inp.currentBranch) then
    ⟨[], .exitError, inp.currentBranch⟩
  else
    match get_next_patch_version inp.latestTag with
    | none => ⟨[], .exception, inp.currentBranch⟩
    | some nextVersion =>
      if inp.fixedItems = [] then ⟨[], .exitError, inp.currentBranch⟩
      else ⟨successEvents inp nextVersion, .success, chars "main"⟩

/-- Inputs of one `_start_hotfix` run; the issue number is the one the
hosting provider assigns to the created issue. -/
structure StartInputs where
  targetPath : List Char
  currentBranch : List Char
  hotfixName : List Char
  issueNumber : Nat

/-- Observable outcome of a `_start_hotfix` run. -/
structure StartOut where
  events : List Event
  result : RunResult
  deriving DecidableEq

/-- The slugification on line 66 of hotfix.py:
`hotfix_name.lower().replace(' ', '-')`. -/
def slugify (name : List Char) : List Char :=
  (name.map Char.toLower).map (fun c => if c = ' ' then '-' else c)

/-- `_start_hotfix` (hotfix.py lines 40-74): the current branch must
literally be `main` (checked before any provider mutation); then the issue is
created, the branch `hotfix/<issue>-<slug>` is created from `main` and
switched to, and the target is persisted as last used. -/
def runStart (inp : StartInputs) : StartOut :=
  if inp.currentBranch = chars "main" then
    let branchName :=
      chars "hotfix/" ++ natRepr inp.issueNumber ++ '-' :: slugify inp.hotfixName
    ⟨[Event.issueCreate inp.hotfixName
        (chars "Hotfix to address: " ++ inp.hotfixName) [chars "bug", chars "hotfix"],
      Event.createBranch branchName (chars "main"),
      Event.switchBranch branchName,
      Event.configSetLastUsed inp.targetPath], .success⟩
  else ⟨[], .exitError⟩

-- ## Predicates used to state claim C10

/-- Claim C10's own characterization, taken from its words: the string
consists of exactly three dot-separated decimal integer literals (a literal
being a nonempty string of decimal digits).  This definition follows the
claim, not the source, and is used to refute the claim as stated. -/
def decimalLit (l : List Char) : Bool := !l.isEmpty && l.all isDigitChar

/-- Three dot-separated decimal integer literals (see `decimalLit`). -/
def threeDecimalLiterals (t : List Char) : Bool :=
  match splitOn '.' t with
  | [a, b, c] => decimalLit a && decimalLit b && decimalLit c
  | _ => false

/-- Domain characterization per the amended claim C10: splitting on `'.'`
yields exactly three fields and each is accepted by Python `int` conversion
(`pyInt`). -/
def pyIntTriple (t : List Char) : Bool :=
  match splitOn '.' t with
  | [a, b, c] => (pyInt a).isSome && (pyInt b).isSome && (pyInt c).isSome
  | _ => false

-- ## The config store (src/gfr/utils/config.py)

/-- `os.path.join` for the flat paths `GFRConfig` uses. -/
def pathJoin (dir name : String) : String := dir ++ "/" ++ name

/-- Key used for the last-used target (config.py line 7). -/
def LAST_USED_MICROSERVICE : String := "last_used_microservice"

/-- Key used for the organization name (config.py line 8). -/
def ORGANIZATION : String := "organization"

/-- State of a `GFRConfig` instance: the repository root reported by the
source-control provider (`none` when `GitOperations` raised, i.e. not inside
a git repository), the process working directory (`os.getcwd()`), and the
loaded key-value document. -/
structure GFRConfig where
  rootPath : Option String
  cwd : String
  config : List (String × String)

/-- `self.config_path` as set in `__init__`: `<root>/.gfr.yml`, or absent
outside a repository. -/
def GFRConfig.configPath (c : GFRConfig) : Option String :=
  c.rootPath.map (fun r => pathJoin r ".gfr.yml")

/-- `__init__` together with `_read_config`: load the document at the
repository root; a missing root or a missing file yields the empty mapping,
not an error. -/
def GFRConfig.init (rootPath : Option String) (cwd : String)
    (fs : String → Option (List (String × String))) : GFRConfig :=
  { rootPath := rootPath, cwd := cwd,
    config :=
      match rootPath with
      | some r => (fs (pathJoin r ".gfr.yml")).getD []
      | none => [] }

/-- Python dict assignment `self.config[k] = v` as seen by `dict.get`. -/
def updateKey (cfg : List (String × String)) (k v : String) : List (String × String) :=
  (k, v) :: cfg.filter (fun p => !(p.1 == k))

/-- `get_last_used_microservice`: `self.config.get(...)`, `none` when the key
is absent. -/
def GFRConfig.get_last_used_microservice (c : GFRConfig) : Option String :=
  c.config.lookup LAST_USED_MICROSERVICE

/-- `get_organization`: `self.config.get(...)`, `none` when the key is
absent. -/
def GFRConfig.get_organization (c : GFRConfig) : Option String :=
  c.config.lookup ORGANIZATION

/-- The write performed by `set_last_used_microservice` via `_write_config`:
the updated mapping goes to the repository-root document `config_path` (and
nowhere when there is no root). -/
def GFRConfig.set_last_used_microservice_write (c : GFRConfig) (name : String) :
    Option (String × List (String × String)) :=
  c.configPath.map (fun p => (p, updateKey c.config LAST_USED_MICROSERVICE name))

/-- The write performed by `set_organization` (config.py lines 48-52): the
updated mapping is dumped to `os.path.join(os.getcwd(), '.gfr.yml')` — the
process working directory, not the repository root — and unconditionally,
even when there is no repository root. -/
def GFRConfig.set_organization_write (c : GFRConfig) (organization : String) :
    String × List (String × String) :=
  (pathJoin c.cwd ".gfr.yml", updateKey c.config ORGANIZATION organization)

-- ## Concrete sample inputs used by witnesses and counterexamples

/-- Pull-request events, used to isolate the dual-PR phase of a finish run. -/
def isPrEvent : Event → Bool
  | .prCreate _ _ _ _ _ => true
  | .prMerge _ => true
  | _ => false

/-- A finish run on a hotfix branch with no prior tag, a fresh changelog, two
extra local branches, and a merge conflict reported on `feature-a` only. -/
def conflictInputs : FinishInputs where
  targetPath := chars "/repo/services/auth"
  currentBranch := chars "hotfix/fix-auth"
  latestTag := []
  fixedItems := [chars "Patched auth bypass"]
  changelogExists := false
  changelogContent := []
  httpUrl := chars "https://github.com/acme/auth"
  today := chars "2026-10-12"
  description := chars "Fixes the bypass."
  allBranches := [chars "main", chars "develop", chars "feature-a", chars "feature-b"]
  mergeOutcome := fun b =>
    if b = chars "feature-a" then .fail (chars "Merge conflict in handlers.py") else .ok

/-- A finish run on a hotfix branch where every provider call succeeds. -/
def plainFinishInputs : FinishInputs where
  targetPath := chars "/repo/services/auth"
  currentBranch := chars "hotfix/fix-auth"
  latestTag := []
  fixedItems := [chars "Patched auth bypass"]
  changelogExists := false
  changelogContent := []
  httpUrl := chars "https://github.com/acme/auth"
  today := chars "2026-10-12"
  description := chars "Fixes the bypass."
  allBranches := [chars "main", chars "develop"]
  mergeOutcome := fun _ => .ok

/-- Concrete sanity checks of the embedding of `_get_next_patch_version`
against the behaviour of the Python source on the same inputs. -/
theorem get_next_patch_version_examples :
    get_next_patch_version (chars "v1.2.3") = some (chars "1.2.4") ∧
    get_next_patch_version (chars "") = some (chars "0.0.1") ∧
    get_next_patch_version (chars "+1.2.3") = some (chars "1.2.4") ∧
    get_next_patch_version (chars " 1 .2.3") = some (chars "1.2.4") ∧
    get_next_patch_version (chars "1_0.2.3") = some (chars "10.2.4") ∧
    get_next_patch_version (chars "-1.2.3") = some (chars "-1.2.4") ∧
    get_next_patch_version (chars "1.2") = none ∧
    get_next_patch_version (chars "v1.2.3-rc1") = none ∧
    get_next_patch_version (chars "vv0.0.9") = some (chars "0.0.10") := by decide

-- ### Lemmas about decimal digit characters and `natRepr`

theorem natReprAux_eq_digits (fuel n : Nat) (h : n ≤ fuel) :
    natReprAux fuel n = (Nat.digits 10 n).map digitChar := by
  induction fuel generalizing n with
  | zero =>
    have hn : n = 0 := Nat.le_zero.mp h
    subst hn
    simp [natReprAux]
  | succ fuel ih =>
    by_cases hn : n = 0
    · subst hn; simp [natReprAux]
    · have hpos : 0 < n := Nat.pos_of_ne_zero hn
      have hdiv : n / 10 ≤ fuel := by
        have : n / 10 < n := Nat.div_lt_self hpos (by norm_num)
        omega
      rw [natReprAux, if_neg hn, ih _ hdiv, Nat.digits_def' (by norm_num : 1 < 10) hpos]
      simp

theorem natRepr_eq_digits (n : Nat) :
    natRepr n = if n = 0 then ['0'] else ((Nat.digits 10 n).map digitChar).reverse := by
  by_cases hn : n = 0
  · simp [natRepr, hn]
  · simp [natRepr, hn, natReprAux_eq_digits n n le_rfl]

theorem isDigitChar_digitChar {d : Nat} (h : d < 10) :
    isDigitChar (digitChar d) = true := by
  interval_cases d <;> decide

theorem charVal_digitChar {d : Nat} (h : d < 10) : charVal (digitChar d) = d := by
  interval_cases d <;> decide

theorem natRepr_all_digits (n : Nat) : ∀ c ∈ natRepr n, isDigitChar c = true := by
  intro c hc
  rw [natRepr_eq_digits] at hc
  by_cases hn : n = 0
  · simp [hn] at hc; subst hc; decide
  · rw [if_neg hn, List.mem_reverse, List.mem_map] at hc
    obtain ⟨d, hd, rfl⟩ := hc
    exact isDigitChar_digitChar (Nat.digits_lt_base (by norm_num) hd)

theorem natRepr_ne_nil (n : Nat) : natRepr n ≠ [] := by
  rw [natRepr_eq_digits]
  by_cases hn : n = 0
  · simp [hn]
  · rw [if_neg hn]
    simp [Nat.digits_ne_nil_iff_ne_zero, hn]

theorem natRepr_cons (n : Nat) :
    ∃ c t, natRepr n = c :: t ∧ isDigitChar c = true := by
  rcases h : natRepr n with _ | ⟨c, t⟩
  · exact absurd h (natRepr_ne_nil n)
  · exact ⟨c, t, rfl, natRepr_all_digits n c (h ▸ List.mem_cons_self c t)⟩

theorem digit_not_dot {c : Char} (h : isDigitChar c = true) : c ≠ '.' := by
  intro hc; subst hc; exact absurd h (by decide)

theorem digit_not_v {c : Char} (h : isDigitChar c = true) : (c == 'v') = false := by
  cases hb : c == 'v'
  · rfl
  · exfalso
    have hcv : c = 'v' := eq_of_beq hb
    subst hcv
    exact absurd h (by decide)

theorem digit_not_plus {c : Char} (h : isDigitChar c = true) : c ≠ '+' := by
  intro hc; subst hc; exact absurd h (by decide)

theorem digit_not_minus {c : Char} (h : isDigitChar c = true) : c ≠ '-' := by
  intro hc; subst hc; exact absurd h (by decide)

theorem digit_not_ws {c : Char} (h : isDigitChar c = true) : isPyWS c = false := by
  revert h
  simp only [isDigitChar, isPyWS, Bool.and_eq_true, decide_eq_true_eq,
    Bool.or_eq_true, Bool.or_eq_false_iff, decide_eq_false_iff_not]
  omega

-- ### Round trip: parsing the decimal rendering of a natural number

theorem foldl_base10 (ds : List Nat) (a : Nat) :
    ds.foldl (fun x d => x * 10 + d) a =
      a * 10 ^ ds.length + Nat.ofDigits 10 ds.reverse := by
  induction ds generalizing a with
  | nil => simp [Nat.ofDigits]
  | cons d ds ih =>
    rw [List.foldl_cons, ih, List.reverse_cons, Nat.ofDigits_append]
    simp [Nat.ofDigits, pow_succ]
    ring

theorem foldl_ext_mem {α β : Type} (f g : α → β → α) (a : α) (l : List β)
    (h : ∀ acc b, b ∈ l → f acc b = g acc b) : l.foldl f a = l.foldl g a := by
  induction l generalizing a with
  | nil => rfl
  | cons x xs ih =>
    rw [List.foldl_cons, List.foldl_cons, h a x (List.mem_cons_self x xs)]
    exact ih _ (fun acc b hb => h acc b (List.mem_cons_of_mem x hb))

theorem pduAux_digits (L : List Char) (a : Nat)
    (h : ∀ c ∈ L, isDigitChar c = true) :
    pduAux a L = some (L.foldl (fun x c => x * 10 + charVal c) a) := by
  induction L generalizing a with
  | nil => simp [pduAux]
  | cons c L ih =>
    have hc : isDigitChar c = true := h c (List.mem_cons_self c L)
    rw [pduAux.eq_def]
    simp only [if_pos hc, List.foldl_cons]
    exact ih _ (fun x hx => h x (List.mem_cons_of_mem c hx))

theorem parseDigitsUnd_natRepr (n : Nat) : parseDigitsUnd (natRepr n) = some n := by
  by_cases hn : n = 0
  · subst hn; decide
  · have hrepr : natRepr n = ((Nat.digits 10 n).reverse.map digitChar) := by
      rw [natRepr_eq_digits, if_neg hn, List.map_reverse]
    have hlt : ∀ d ∈ (Nat.digits 10 n).reverse, d < 10 := fun d hd =>
      Nat.digits_lt_base (by norm_num) (List.mem_reverse.mp hd)
    rcases hds : (Nat.digits 10 n).reverse with _ | ⟨d0, rest⟩
    · exfalso
      apply hn
      have : Nat.digits 10 n = [] := by
        have := congrArg List.reverse hds
        simpa using this
      exact (Nat.digits_eq_nil_iff_eq_zero.mp this)
    · rw [hrepr, hds, List.map_cons, parseDigitsUnd,
        if_pos (isDigitChar_digitChar (hlt d0 (hds ▸ List.mem_cons_self d0 rest))),
        pduAux_digits]
      · have hd0 : d0 < 10 := hlt d0 (hds ▸ List.mem_cons_self d0 rest)
        have hfold : (rest.map digitChar).foldl (fun x c => x * 10 + charVal c)
            (charVal (digitChar d0)) =
            rest.foldl (fun x d => x * 10 + d) d0 := by
          rw [List.foldl_map, charVal_digitChar hd0]
          apply foldl_ext_mem
          intro x y hy
          rw [charVal_digitChar (hlt y (hds ▸ List.mem_cons_of_mem d0 hy))]
        rw [hfold, foldl_base10]
        congr 1
        have hrev : Nat.digits 10 n = (d0 :: rest).reverse := by
          have := congrArg List.reverse hds
          simpa using this
        conv_rhs => rw [← Nat.ofDigits_digits 10 n, hrev]
        rw [List.reverse_cons, Nat.ofDigits_append]
        simp [Nat.ofDigits]
        ring
      · intro c hc
        rw [List.mem_map] at hc
        obtain ⟨d, hd, rfl⟩ := hc
        exact isDigitChar_digitChar (hlt d (hds ▸ List.mem_cons_of_mem d0 hd))

theorem dropWhile_eq_self_all {p : Char → Bool} {l : List Char}
    (h : ∀ c ∈ l, p c = false) : l.dropWhile p = l := by
  cases l with
  | nil => rfl
  | cons c t =>
    rw [List.dropWhile_cons, h c (List.mem_cons_self c t)]
    simp

theorem pyStripWS_no_ws {l : List Char} (h : ∀ c ∈ l, isPyWS c = false) :
    pyStripWS l = l := by
  unfold pyStripWS
  rw [dropWhile_eq_self_all h,
    dropWhile_eq_self_all (fun c hc => h c (List.mem_reverse.mp hc)),
    List.reverse_reverse]

theorem pyInt_natRepr (n : Nat) : pyInt (natRepr n) = some (Int.ofNat n) := by
  have hdig := natRepr_all_digits n
  have hstrip : pyStripWS (natRepr n) = natRepr n :=
    pyStripWS_no_ws (fun c hc => digit_not_ws (hdig c hc))
  obtain ⟨c, t, hrepr, hc⟩ := natRepr_cons n
  have hplus : ¬c = '+' := digit_not_plus hc
  have hminus : ¬c = '-' := digit_not_minus hc
  unfold pyInt
  simp only [hstrip.trans hrepr, if_neg hplus, if_neg hminus]
  rw [← hrepr, parseDigitsUnd_natRepr]
  rfl

-- ### Lemmas about `splitOn` and `pyLstrip`

theorem splitOn_append_sep {sep : Char} {a : List Char}
    (h : ∀ c ∈ a, ¬c = sep) (r : List Char) :
    splitOn sep (a ++ sep :: r) = a :: splitOn sep r := by
  induction a with
  | nil =>
    simp [splitOn]
  | cons c a ih =>
    have hc : ¬c = sep := h c (List.mem_cons_self c a)
    rw [List.cons_append, splitOn.eq_def]
    simp only [if_neg hc]
    rw [ih (fun x hx => h x (List.mem_cons_of_mem c hx))]

theorem splitOn_no_sep {sep : Char} {a : List Char} (h : ∀ c ∈ a, ¬c = sep) :
    splitOn sep a = [a] := by
  induction a with
  | nil => rfl
  | cons c a ih =>
    have hc : ¬c = sep := h c (List.mem_cons_self c a)
    rw [splitOn.eq_def]
    simp only [if_neg hc]
    rw [ih (fun x hx => h x (List.mem_cons_of_mem c hx))]

theorem pyLstrip_v_natRepr (x : Nat) (rest : List Char) :
    pyLstrip 'v' ('v' :: (natRepr x ++ rest)) = natRepr x ++ rest := by
  obtain ⟨c, t, hx, hd⟩ := natRepr_cons x
  unfold pyLstrip
  rw [List.dropWhile_cons]
  simp only [beq_self_eq_true, if_pos]
  rw [hx, List.cons_append, List.dropWhile_cons, digit_not_v hd]
  simp

theorem intRepr_ofNat (n : Nat) : intRepr (Int.ofNat n) = natRepr n := by
  unfold intRepr
  rw [if_neg (show ¬Int.ofNat n < 0 from Int.not_lt.mpr (Int.ofNat_nonneg n))]
  simp

theorem intRepr_ofNat_add_one (n : Nat) : intRepr (Int.ofNat n + 1) = natRepr (n + 1) := by
  have h : Int.ofNat n + 1 = Int.ofNat (n + 1) := by
    simp [Int.ofNat_succ]
  rw [h, intRepr_ofNat]

/-- Claim C1: for every prior tag string of the form `vX.Y.Z` (with `X`, `Y`,
`Z` non-negative integers in decimal), `_get_next_patch_version` returns the
string `X.Y.(Z+1)` — the major and minor components are reproduced unchanged,
so they are never incremented — and for an empty/absent prior tag it returns
`"0.0.1"`. -/
theorem c1_next_patch_version :
    (∀ x y z : Nat,
      get_next_patch_version
          ('v' :: (natRepr x ++ ('.' :: (natRepr y ++ ('.' :: natRepr z))))) =
        some (natRepr x ++ ('.' :: (natRepr y ++ ('.' :: natRepr (z + 1)))))) ∧
    get_next_patch_version [] = some (chars "0.0.1") := by
  constructor
  · intro x y z
    have hsx : ∀ c ∈ natRepr x, ¬c = '.' := fun c hc =>
      digit_not_dot (natRepr_all_digits x c hc)
    have hsy : ∀ c ∈ natRepr y, ¬c = '.' := fun c hc =>
      digit_not_dot (natRepr_all_digits y c hc)
    have hsz : ∀ c ∈ natRepr z, ¬c = '.' := fun c hc =>
      digit_not_dot (natRepr_all_digits z c hc)
    unfold get_next_patch_version
    rw [if_neg (by
        simp : ¬('v' :: (natRepr x ++ ('.' :: (natRepr y ++ ('.' :: natRepr z))))) = []),
      pyLstrip_v_natRepr, splitOn_append_sep hsx, splitOn_append_sep hsy,
      splitOn_no_sep hsz]
    simp only [List.map_cons, List.map_nil, pyInt_natRepr]
    simp only [intRepr_ofNat, intRepr_ofNat_add_one]
    simp [List.append_assoc]
  · decide



/-- Claim C3: for every input branch list and current hotfix branch, a branch
is in the merge plan of the best-effort propagation phase iff it is in the
input list and is none of the literal names `main`, `develop`, `doc`, the
current branch, or a remote-tracking name (`remotes/` prefix).  The
comparisons are exact, so the exclusions do not depend on the case or order
of the input list, and every other branch (including differently-cased
variants such as `Main`) is included. -/
theorem c3_branch_merge_plan (branches : List (List Char)) (current b : List Char) :
    b ∈ branchesToMergeInto branches current ↔
      b ∈ branches ∧ b ≠ chars "main" ∧ b ≠ chars "develop" ∧ b ≠ chars "doc" ∧
        b ≠ current ∧ (chars "remotes/").isPrefixOf b = false := by
  unfold branchesToMergeInto
  rw [List.mem_filter]
  simp [List.elem_iff, not_or, and_assoc]

/-- Claim C5: a finish run whose current branch does not start with
`hotfix/` ends with a fatal error, performs no side effect at all, and leaves
the checkout untouched. -/
theorem c5_finish_requires_hotfix_branch (inp : FinishInputs)
    (h : (chars "hotfix/").isPrefixOf inp.currentBranch = false) :
    runFinish inp = ⟨[], .exitError, inp.currentBranch⟩ := by
  simp [runFinish, h]

theorem c5_witness :
    (chars "hotfix/").isPrefixOf (chars "main") = false ∧
    runFinish
        { targetPath := chars "/repo/services/auth"
          currentBranch := chars "main"
          latestTag := []
          fixedItems := [chars "x"]
          changelogExists := false
          changelogContent := []
          httpUrl := chars "https://github.com/acme/auth"
          today := chars "2026-10-12"
          description := chars "d"
          allBranches := [chars "main"]
          mergeOutcome := fun _ => .ok } =
      ⟨[], .exitError, chars "main"⟩ :=
  ⟨by decide, c5_finish_requires_hotfix_branch _ (by decide)⟩

/-- Claim C6: a start run whose current branch is not literally `main` ends
with a fatal error before any provider mutation: no issue is created, no
branch is created or switched, and the config store is not written. -/
theorem c6_start_requires_main (inp : StartInputs)
    (h : inp.currentBranch ≠ chars "main") :
    runStart inp = ⟨[], .exitError⟩ := by
  simp [runStart, h]

theorem c6_witness :
    (chars "develop" : List Char) ≠ chars "main" ∧
    runStart
        { targetPath := chars "/repo/services/auth"
          currentBranch := chars "develop"
          hotfixName := chars "Critical Security Patch"
          issueNumber := 42 } =
      ⟨[], .exitError⟩ :=
  ⟨by decide, c6_start_requires_main _ (by decide)⟩

/-- Claim C7: a finish run that reaches the changelog prompt (hotfix branch,
parseable or absent latest tag) and collects an empty list of Fixed items
ends with a fatal validation error and performs no side effect: no file
write, commit, push, PR, tag, release, merge or deletion happens. -/
theorem c7_empty_items_abort (inp : FinishInputs)
    (hbr : (chars "hotfix/").isPrefixOf inp.currentBranch = true)
    (hver : (get_next_patch_version inp.latestTag).isSome = true)
    (hitems : inp.fixedItems = []) :
    runFinish inp = ⟨[], .exitError, inp.currentBranch⟩ := by
  obtain ⟨v, hv⟩ := Option.isSome_iff_exists.mp hver
  simp [runFinish, hbr, hv, hitems]

theorem c7_witness :
    (chars "hotfix/").isPrefixOf (chars "hotfix/fix-auth") = true ∧
    (get_next_patch_version ([] : List Char)).isSome = true ∧
    ([] : List (List Char)) = [] ∧
    runFinish
        { targetPath := chars "/repo/services/auth"
          currentBranch := chars "hotfix/fix-auth"
          latestTag := []
          fixedItems := []
          changelogExists := true
          changelogContent := chars "# Changelog\n\nIntro.\n\n"
          httpUrl := chars "https://github.com/acme/auth"
          today := chars "2026-10-12"
          description := chars "d"
          allBranches := [chars "main"]
          mergeOutcome := fun _ => .ok } =
      ⟨[], .exitError, chars "hotfix/fix-auth"⟩ :=
  ⟨by decide, by decide, rfl, c7_empty_items_abort _ (by decide) (by decide) rfl⟩

/-- Claim C9 (code bug): `set_last_used_microservice` writes the
repository-root document `<root>/.gfr.yml`, and the getters treat a missing
document or key as an empty result, as claimed — but `set_organization`
writes `<cwd>/.gfr.yml`, the process working directory, which differs from
the root document whenever the tool runs from a subdirectory, contradicting
the class's own docstring ("Manages the .gfr.yml configuration file at the
root of the project"). -/
theorem c9_set_organization_wrong_path :
    (GFRConfig.set_organization_write
        (GFRConfig.init (some "/repo") "/repo/services/auth" (fun _ => none))
        "acme").1 = "/repo/services/auth/.gfr.yml" ∧
    GFRConfig.configPath
        (GFRConfig.init (some "/repo") "/repo/services/auth" (fun _ => none)) =
      some "/repo/.gfr.yml" ∧
    ("/repo/services/auth/.gfr.yml" : String) ≠ "/repo/.gfr.yml" ∧
    (GFRConfig.set_last_used_microservice_write
        (GFRConfig.init (some "/repo") "/repo/services/auth" (fun _ => none))
        "auth").map Prod.fst = some "/repo/.gfr.yml" ∧
    GFRConfig.get_last_used_microservice
        (GFRConfig.init (some "/repo") "/repo/services/auth" (fun _ => none)) = none ∧
    GFRConfig.get_organization
        (GFRConfig.init (some "/repo") "/repo/services/auth" (fun _ => none)) = none := by
  refine ⟨rfl, rfl, by decide, rfl, rfl, rfl⟩

/-- Counterexample to claim C10 as stated: after removing leading `'v'`
characters, the string `"+1.2.3"` does not consist of three dot-separated
decimal integer literals (its first field carries a sign), yet
`_get_next_patch_version` is defined on it and returns `"1.2.4"`, because
Python `int()` accepts an optional sign and surrounding whitespace. -/
theorem c10_defined_beyond_literals :
    (get_next_patch_version (chars "+1.2.3")).isSome = true ∧
    get_next_patch_version (chars "+1.2.3") = some (chars "1.2.4") ∧
    threeDecimalLiterals (pyLstrip 'v' (chars "+1.2.3")) = false := by decide

/-- Claim C10 as amended: for every non-empty input, `_get_next_patch_version`
is defined exactly when, after removing all leading `'v'` characters, the
string splits on `'.'` into exactly three fields each accepted by Python
`int` conversion (optional surrounding whitespace, optional sign,
underscore-grouped digits); on any other non-empty input it raises, so a
finish run on a hotfix branch whose latest tag has such a form aborts at the
version-computation step with no side effects. -/
theorem c10_amended_domain (s : List Char) (hne : s ≠ []) :
    ((get_next_patch_version s).isSome = true ↔ pyIntTriple (pyLstrip 'v' s) = true) ∧
    (get_next_patch_version s = none →
      ∀ inp : FinishInputs, inp.latestTag = s →
        (chars "hotfix/").isPrefixOf inp.currentBranch = true →
        runFinish inp = ⟨[], .exception, inp.currentBranch⟩) := by
  constructor
  · unfold get_next_patch_version pyIntTriple
    rw [if_neg hne]
    rcases hL : splitOn '.' (pyLstrip 'v' s) with _ | ⟨a, _ | ⟨b, _ | ⟨c, _ | ⟨d, t⟩⟩⟩⟩
    · simp
    · simp only [List.map_cons, List.map_nil]
      rcases pyInt a with _ | x <;> simp
    · simp only [List.map_cons, List.map_nil]
      rcases pyInt a with _ | x <;> rcases pyInt b with _ | y <;> simp
    · simp only [List.map_cons, List.map_nil]
      rcases pyInt a with _ | x <;> rcases pyInt b with _ | y <;>
        rcases pyInt c with _ | z <;> simp
    · simp only [List.map_cons, List.map_nil]
      rcases pyInt a with _ | x <;> rcases pyInt b with _ | y <;>
        rcases pyInt c with _ | z <;> rcases pyInt d with _ | w <;> simp
  · intro hnone inp htag hbr
    simp [runFinish, hbr, htag, hnone]

theorem c10_amended_witness :
    (chars "1.2" : List Char) ≠ [] ∧
    (((get_next_patch_version (chars "1.2")).isSome = true ↔
        pyIntTriple (pyLstrip 'v' (chars "1.2")) = true) ∧
      (get_next_patch_version (chars "1.2") = none →
        ∀ inp : FinishInputs, inp.latestTag = chars "1.2" →
          (chars "hotfix/").isPrefixOf inp.currentBranch = true →
          runFinish inp = ⟨[], .exception, inp.currentBranch⟩)) :=
  ⟨by decide, c10_amended_domain (chars "1.2") (by decide)⟩

/-- Counterexample to claim C2 as stated: on the existing content
`"# Changelog\n\nIntro.\n\nTail\n"` the newly rendered entry is not inserted
immediately after the first blank line following the `# Changelog` heading
(that position is index 13, where `"Intro."` still stands); the code inserts
it only after the first following paragraph, i.e. after `"Intro.\n\n"`, and
appends one extra newline. -/
theorem c2_entry_after_first_paragraph :
    applyChangelogSub (chars "# Changelog\n\nIntro.\n\nTail\n")
        (renderEntry (chars "0.0.2")
          (chars "https://github.com/acme/auth/releases/tag/v0.0.2")
          (chars "2026-10-12") [chars "Patched auth bypass"]) =
      chars "# Changelog\n\nIntro.\n\n" ++
        renderEntry (chars "0.0.2")
          (chars "https://github.com/acme/auth/releases/tag/v0.0.2")
          (chars "2026-10-12") [chars "Patched auth bypass"] ++
        chars "\nTail\n" ∧
    (renderEntry (chars "0.0.2")
          (chars "https://github.com/acme/auth/releases/tag/v0.0.2")
          (chars "2026-10-12") [chars "Patched auth bypass"]).isPrefixOf
        ((applyChangelogSub (chars "# Changelog\n\nIntro.\n\nTail\n")
            (renderEntry (chars "0.0.2")
              (chars "https://github.com/acme/auth/releases/tag/v0.0.2")
              (chars "2026-10-12") [chars "Patched auth bypass"])).drop
          headingPat.length) = false := by decide

/-- Claim C2 as amended: when the existing content decomposes as
`pre ++ "# Changelog\n\n" ++ mid ++ "\n\n" ++ post` with the heading pattern
occurring first at `pre.length` and the blank pair occurring first at
`mid.length` after the heading, the write inserts the entry plus one extra
newline exactly once, immediately after that first blank-line-terminated
block following the heading (the heading's first paragraph), and preserves
all prior content verbatim before and after the insertion point; content in
which the pattern never matches is left unchanged, with no entry inserted. -/
theorem c2_amended_insertion (pre mid post entry : List Char)
    (h1 : findIdx headingPat (pre ++ headingPat ++ mid ++ chars "\n\n" ++ post) =
      some pre.length)
    (h2 : findIdx (chars "\n\n") (mid ++ (chars "\n\n" ++ post)) = some mid.length) :
    applyChangelogSub (pre ++ headingPat ++ mid ++ chars "\n\n" ++ post) entry =
      pre ++ headingPat ++ mid ++ chars "\n\n" ++ entry ++ '\n' :: post ∧
    ∀ c e, findMatchEnd c = none → applyChangelogSub c e = c := by
  constructor
  · have hdrop : (pre ++ headingPat ++ mid ++ chars "\n\n" ++ post).drop
        (pre.length + headingPat.length) = mid ++ (chars "\n\n" ++ post) := by
      have hs : pre ++ headingPat ++ mid ++ chars "\n\n" ++ post =
          (pre ++ headingPat) ++ (mid ++ (chars "\n\n" ++ post)) := by
        simp [List.append_assoc]
      rw [hs, ← List.length_append]
      exact List.drop_left _ _
    have hend : findMatchEnd (pre ++ headingPat ++ mid ++ chars "\n\n" ++ post) =
        some (pre.length + headingPat.length + mid.length + 2) := by
      unfold findMatchEnd
      simp only [h1, hdrop, h2]
    have hlen : (pre ++ headingPat ++ mid ++ chars "\n\n").length =
        pre.length + headingPat.length + mid.length + 2 := by
      simp only [List.length_append]
      rfl
    unfold applyChangelogSub
    simp only [hend]
    rw [← hlen, List.take_left, List.drop_left]
  · intro c e hnone
    unfold applyChangelogSub
    rw [hnone]

theorem c2_amended_witness :
    findIdx headingPat
        (chars "" ++ headingPat ++ chars "Intro." ++ chars "\n\n" ++ chars "Tail\n") =
      some (chars "").length ∧
    findIdx (chars "\n\n") (chars "Intro." ++ (chars "\n\n" ++ chars "Tail\n")) =
      some (chars "Intro.").length ∧
    (applyChangelogSub
        (chars "" ++ headingPat ++ chars "Intro." ++ chars "\n\n" ++ chars "Tail\n")
        (chars "E\n") =
      chars "" ++ headingPat ++ chars "Intro." ++ chars "\n\n" ++ chars "E\n" ++
        '\n' :: chars "Tail\n" ∧
    ∀ c e, findMatchEnd c = none → applyChangelogSub c e = c) :=
  ⟨by decide, by decide,
    c2_amended_insertion (chars "") (chars "Intro.") (chars "Tail\n") (chars "E\n")
      (by decide) (by decide)⟩

-- ### Lemmas about the best-effort propagation phase

theorem runFinish_success (inp : FinishInputs) (v : List Char)
    (hbr : (chars "hotfix/").isPrefixOf inp.currentBranch = true)
    (hv : get_next_patch_version inp.latestTag = some v)
    (hitems : inp.fixedItems ≠ []) :
    runFinish inp = ⟨successEvents inp v, .success, chars "main"⟩ := by
  simp [runFinish, hbr, hv, hitems]

theorem propagate_attempts_all (outcome : List Char → MergeOutcome)
    (plan : List (List Char)) (b : List Char) (hb : b ∈ plan) :
    Event.switchBranch b ∈ propagateEvents outcome plan ∧
    Event.mergeMain b ∈ propagateEvents outcome plan := by
  induction plan with
  | nil => cases hb
  | cons hd rest ih =>
    rcases List.mem_cons.mp hb with rfl | hmem
    · constructor <;> simp [propagateEvents]
    · obtain ⟨h1, h2⟩ := ih hmem
      constructor <;> simp [propagateEvents, h1, h2]

theorem propagate_conflict_block (outcome : List Char → MergeOutcome)
    (plan : List (List Char)) (b m : List Char) (hb : b ∈ plan)
    (hout : outcome b = .fail m) (hmsg : hasMergeConflictMsg m = true) :
    ∃ pre post, propagateEvents outcome plan =
      pre ++ ([Event.switchBranch b, Event.mergeMain b, Event.guidance b] ++ post) := by
  induction plan with
  | nil => cases hb
  | cons hd rest ih =>
    by_cases hhd : hd = b
    · subst hhd
      refine ⟨[], propagateEvents outcome rest, ?_⟩
      simp [propagateEvents, hout, hmsg]
    · have hmem : b ∈ rest := by
        rcases List.mem_cons.mp hb with rfl | hmem
        · exact absurd rfl hhd
        · exact hmem
      obtain ⟨pre, post, hsplit⟩ := ih hmem
      refine ⟨Event.switchBranch hd :: Event.mergeMain hd ::
        ((match outcome hd with
          | .ok => []
          | .fail msg =>
            if hasMergeConflictMsg msg then [Event.guidance hd]
            else [Event.warnNoMerge hd]) ++ pre), post, ?_⟩
      simp [propagateEvents, hsplit, List.append_assoc]

/-- Counterexample to claim C4 as stated: on a run where the merge into
`feature-a` reports a conflict, the run does complete and guidance is
emitted, but the repository is not left checked out on the conflicted branch:
the loop switches on to `feature-b` and cleanup ends the run on `main`. -/
theorem c4_final_checkout_is_main :
    (runFinish conflictInputs).result = .success ∧
    Event.guidance (chars "feature-a") ∈ (runFinish conflictInputs).events ∧
    Event.switchBranch (chars "feature-b") ∈ (runFinish conflictInputs).events ∧
    (runFinish conflictInputs).finalBranch = chars "main" ∧
    (chars "main" : List Char) ≠ chars "feature-a" := by decide

/-- Claim C4 as amended: when the merge into a candidate branch reports a
merge conflict during the best-effort propagation phase, the run does not
abort: it completes with success, guidance is emitted for the conflicted
branch and the handler performs no further repository operation on it (its
propagation sub-trace is exactly switch, merge attempt, guidance, so the
conflicted branch stays checked out only until the next candidate is switched
to), every candidate branch is still attempted (switched to, with a merge of
`main` attempted), and cleanup finally leaves the repository checked out on
`main`, not on the conflicted branch. -/
theorem c4_amended_conflict_nonfatal (inp : FinishInputs) (c m : List Char)
    (hbr : (chars "hotfix/").isPrefixOf inp.currentBranch = true)
    (hv : (get_next_patch_version inp.latestTag).isSome = true)
    (hitems : inp.fixedItems ≠ [])
    (hc : c ∈ branchesToMergeInto inp.allBranches inp.currentBranch)
    (hout : inp.mergeOutcome c = .fail m)
    (hmsg : hasMergeConflictMsg m = true) :
    (runFinish inp).result = .success ∧
    Event.guidance c ∈ (runFinish inp).events ∧
    (∀ b ∈ branchesToMergeInto inp.allBranches inp.currentBranch,
      Event.switchBranch b ∈ (runFinish inp).events ∧
      Event.mergeMain b ∈ (runFinish inp).events) ∧
    (∃ pre post, (runFinish inp).events =
      pre ++ ([Event.switchBranch c, Event.mergeMain c, Event.guidance c] ++ post)) ∧
    (runFinish inp).finalBranch = chars "main" := by
  obtain ⟨v, hv'⟩ := Option.isSome_iff_exists.mp hv
  rw [runFinish_success inp v hbr hv' hitems]
  obtain ⟨pre, post, hsplit⟩ :=
    propagate_conflict_block inp.mergeOutcome
      (branchesToMergeInto inp.allBranches inp.currentBranch) c m hc hout hmsg
  refine ⟨rfl, ?_, ?_, ?_, rfl⟩
  · unfold successEvents
    rw [hsplit]
    simp
  · intro b hb
    obtain ⟨h1, h2⟩ := propagate_attempts_all inp.mergeOutcome
      (branchesToMergeInto inp.allBranches inp.currentBranch) b hb
    constructor
    · unfold successEvents
      simp [h1]
    · unfold successEvents
      simp [h2]
  · unfold successEvents
    rw [hsplit]
    refine ⟨?_ ++ pre, post ++ ?_, ?_⟩
    · exact [Event.fileWrite (chars "CHANGELOG.md")
        (if inp.changelogExists
         then applyChangelogSub inp.changelogContent
           (renderEntry v (inp.httpUrl ++ chars "/releases/tag/" ++ 'v' :: v)
             inp.today inp.fixedItems)
         else pyStripWS CHANGELOG_TEMPLATE ++ chars "\n\n" ++
           renderEntry v (inp.httpUrl ++ chars "/releases/tag/" ++ 'v' :: v)
             inp.today inp.fixedItems),
        Event.gitAdd [chars "CHANGELOG.md"],
        Event.gitCommit (chars "docs: update changelog for version " ++ v),
        Event.gitPush inp.currentBranch true,
        Event.prCreate (chars "Hotfix: " ++ inp.currentBranch) (prBodyOf inp)
          inp.currentBranch (chars "main") [chars "bug", chars "hotfix"],
        Event.prMerge (chars "main"),
        Event.prCreate (chars "Hotfix: " ++ inp.currentBranch) (prBodyOf inp)
          inp.currentBranch (chars "develop") [chars "bug", chars "hotfix"],
        Event.prMerge (chars "develop"),
        Event.switchBranch (chars "main"),
        Event.pullBranch (chars "main"),
        Event.switchBranch (chars "develop"),
        Event.pullBranch (chars "develop"),
        Event.switchBranch (chars "main"),
        Event.createTag ('v' :: v) (chars "Release " ++ v),
        Event.pushTags,
        Event.createRelease ('v' :: v) (chars "Release " ++ v)
          (chars "## Changelog\n- " ++ joinSep (chars "\n- ") inp.fixedItems)]
    · exact [Event.deleteRemoteBranch inp.currentBranch,
        Event.deleteLocalBranch inp.currentBranch,
        Event.switchBranch (chars "main"),
        Event.configSetLastUsed inp.targetPath]
    · simp [List.append_assoc]

theorem c4_amended_witness :
    (chars "hotfix/").isPrefixOf conflictInputs.currentBranch = true ∧
    (get_next_patch_version conflictInputs.latestTag).isSome = true ∧
    conflictInputs.fixedItems ≠ [] ∧
    chars "feature-a" ∈
      branchesToMergeInto conflictInputs.allBranches conflictInputs.currentBranch ∧
    conflictInputs.mergeOutcome (chars "feature-a") =
      .fail (chars "Merge conflict in handlers.py") ∧
    hasMergeConflictMsg (chars "Merge conflict in handlers.py") = true ∧
    ((runFinish conflictInputs).result = .success ∧
     Event.guidance (chars "feature-a") ∈ (runFinish conflictInputs).events ∧
     (∀ b ∈ branchesToMergeInto conflictInputs.allBranches conflictInputs.currentBranch,
       Event.switchBranch b ∈ (runFinish conflictInputs).events ∧
       Event.mergeMain b ∈ (runFinish conflictInputs).events) ∧
     (∃ pre post, (runFinish conflictInputs).events =
       pre ++ ([Event.switchBranch (chars "feature-a"),
                Event.mergeMain (chars "feature-a"),
                Event.guidance (chars "feature-a")] ++ post)) ∧
     (runFinish conflictInputs).finalBranch = chars "main") :=
  ⟨by decide, by decide, by decide, by decide, by decide, by decide,
    c4_amended_conflict_nonfatal conflictInputs (chars "feature-a")
      (chars "Merge conflict in handlers.py") (by decide) (by decide) (by decide)
      (by decide) (by decide) (by decide)⟩

-- ### The dual pull-request phase

theorem filter_isPr_propagate (outcome : List Char → MergeOutcome)
    (plan : List (List Char)) :
    (propagateEvents outcome plan).filter isPrEvent = [] := by
  induction plan with
  | nil => rfl
  | cons hd rest ih =>
    rcases houtcome : outcome hd with _ | msg
    · simp [propagateEvents, houtcome, isPrEvent, List.filter_append, ih]
    · by_cases hmsg : hasMergeConflictMsg msg = true <;>
        simp [propagateEvents, houtcome, hmsg, isPrEvent, List.filter_append, ih]

/-- Claim C8: every finish run that succeeds creates and merges exactly two
pull requests, in the fixed order base `main` first and base `develop`
second, each created from the hotfix branch with title `Hotfix: <branch>`,
the body built in the description step (the operator text, prefixed with an
issue-closing directive when the branch encodes an issue number), and labels
`bug` and `hotfix`; each PR is merged before the next one is created, as the
filtered event trace shows. -/
theorem c8_dual_pr_merge (inp : FinishInputs)
    (h : (runFinish inp).result = RunResult.success) :
    ((runFinish inp).events).filter isPrEvent =
      [Event.prCreate (chars "Hotfix: " ++ inp.currentBranch) (prBodyOf inp)
         inp.currentBranch (chars "main") [chars "bug", chars "hotfix"],
       Event.prMerge (chars "main"),
       Event.prCreate (chars "Hotfix: " ++ inp.currentBranch) (prBodyOf inp)
         inp.currentBranch (chars "develop") [chars "bug", chars "hotfix"],
       Event.prMerge (chars "develop")] := by
  cases hbr : (chars "hotfix/").isPrefixOf inp.currentBranch with
  | false => simp [runFinish, hbr] at h
  | true =>
    rcases hv : get_next_patch_version inp.latestTag with _ | v
    · simp [runFinish, hbr, hv] at h
    · by_cases hitems : inp.fixedItems = []
      · simp [runFinish, hbr, hv, hitems] at h
      · rw [runFinish_success inp v hbr hv hitems]
        unfold successEvents
        simp only [List.filter_append, filter_isPr_propagate]
        simp [isPrEvent]

theorem c8_witness :
    (runFinish plainFinishInputs).result = RunResult.success ∧
    ((runFinish plainFinishInputs).events).filter isPrEvent =
      [Event.prCreate (chars "Hotfix: " ++ plainFinishInputs.currentBranch)
         (prBodyOf plainFinishInputs) plainFinishInputs.currentBranch
         (chars "main") [chars "bug", chars "hotfix"],
       Event.prMerge (chars "main"),
       Event.prCreate (chars "Hotfix: " ++ plainFinishInputs.currentBranch)
         (prBodyOf plainFinishInputs) plainFinishInputs.currentBranch
         (chars "develop") [chars "bug", chars "hotfix"],
       Event.prMerge (chars "develop")] :=
  ⟨by decide, c8_dual_pr_merge plainFinishInputs (by decide)⟩
